import Mathlib

/-!
Verification of the FR-Gouv-Domains-Analyzer pipeline (`sitesgouv.py`).

Strings are embedded as lists of natural numbers: the code points of the
latin-1 decoded file content (the script opens its input with
`encoding='latin-1'`, so every character is a code point in `0..255`).
Each Python string operation used by the script is modelled as a function
on such lists, faithful on that range.
-/

/-- A Python string, as the list of its character code points. -/
abbrev Str := List Nat

/-- Code points of a Lean string literal, for writing the script's literals. -/
def lit (s : String) : Str := s.data.map Char.toNat

/-- Python `str.isspace` on a single character, for the latin-1 range:
tab..carriage-return (9..13), the C0 separators 28..31, space 32,
next-line 133 and no-break space 160. -/
def pyEstEspace (c : Nat) : Bool :=
  (9 ≤ c && c ≤ 13) || (28 ≤ c && c ≤ 32) || c == 133 || c == 160

/-- Python `str.isprintable` on a single character, for the latin-1 range:
the visible ASCII range plus space (32..126), and 161..255 minus the soft
hyphen 173.  C0/C1 controls and DEL are not printable. -/
def pyEstImprimable (c : Nat) : Bool :=
  (32 ≤ c && c ≤ 126) || (161 ≤ c && c ≤ 255 && c != 173)

/-- Python `str.lower`, character by character, on the latin-1 range:
A..Z (65..90) and the accented capitals 192..222 except the multiplication
sign 215 move down by 32; every other character is fixed. -/
def pyLower (c : Nat) : Nat :=
  if (65 ≤ c ∧ c ≤ 90) ∨ (192 ≤ c ∧ c ≤ 222 ∧ c ≠ 215) then c + 32 else c

/-- Left part of Python `str.strip`: drop leading whitespace. -/
def trimGauche (l : Str) : Str := l.dropWhile pyEstEspace

/-- Right part of Python `str.strip`: drop trailing whitespace. -/
def trimDroite (l : Str) : Str := (l.reverse.dropWhile pyEstEspace).reverse

/-- Python `str.strip` with no argument: remove leading and trailing
whitespace. -/
def pyStrip (l : Str) : Str := trimDroite (trimGauche l)

/-- Worker for `pySplitWs`, structurally recursive on a fuel bounded below
by the length of the string. -/
def motsAux : Nat → Str → List Str
  | _, [] => []
  | 0, _ => []
  | fuel + 1, c :: reste =>
    if pyEstEspace c then motsAux fuel reste
    else
      (c :: reste).takeWhile (fun x => !pyEstEspace x) ::
        motsAux fuel ((c :: reste).dropWhile (fun x => !pyEstEspace x))

/-- Python `str.split` with no argument: the maximal runs of
non-whitespace characters, in order. -/
def pySplitWs (s : Str) : List Str := motsAux s.length s

/-- Worker for `pyReplace`, structurally recursive on a fuel bounded below
by the length of the string. -/
def remplaceAux (ancien : Str) : Nat → Str → Str
  | _, [] => []
  | 0, s => s
  | fuel + 1, c :: reste =>
    if ancien.isPrefixOf (c :: reste) then
      remplaceAux ancien fuel (reste.drop (ancien.length - 1))
    else
      c :: remplaceAux ancien fuel reste

/-- Python `s.replace(ancien, '')` for a non-empty pattern: remove the
non-overlapping occurrences of `ancien`, scanning left to right in a
single pass (the scan resumes after each removed occurrence, so a new
occurrence formed by the removal is not removed). -/
def pyReplace (ancien s : Str) : Str := remplaceAux ancien s.length s

/-- Python `sous in s` on strings: `sous` occurs contiguously in `s`. -/
def contient : Str → Str → Bool
  | [], sous => sous.isEmpty
  | c :: reste, sous => sous.isPrefixOf (c :: reste) || contient reste sous

/-- Decimal digits of a natural number, Python `str(i)` inside f-strings. -/
def natVersStr (n : Nat) : Str := (Nat.repr n).data.map Char.toNat

/-- The rejection record of line 57 of the script:
the f-string of line 57, built from the 1-based line number, the first
50 characters of the stripped line, and a literal trailing ellipsis. -/
def formatRejet (i : Nat) (ligne : Str) : Str :=
  lit "Ligne " ++ natVersStr i ++ lit ": " ++ ligne.take 50 ++ lit "..."

/-- The allow-list `tld_valides` of line 51 of the script. -/
def tldValides : List Str :=
  [ lit ".gouv.fr", lit ".fr", lit ".gouv.nc", lit ".nc", lit ".gouv.pf",
    lit ".pref.gouv.fr"]

/-- Lines 46..48 of the script: lowercase, remove `www.` in one pass, and
keep only the printable non-whitespace characters. -/
def nettoyer (partie : Str) : Str :=
  (pyReplace (lit "www.") (partie.map pyLower)).filter
    (fun c => pyEstImprimable c && !pyEstEspace c)

/-- The mutable fields of `AnalyseurDomainesGouvFr` that
`charger_domaines` fills in: the raw non-empty line count, the sorted
accepted domains, and the rejection records. -/
structure EtatChargeur where
  lignes_brutes : Nat
  domaines : List Str
  domaines_manquants : List Str
deriving DecidableEq

/-- The loop of lines 34..57 of the script, over the remaining lines.
`i` is the 1-based index of the next line; `ensemble` holds the members of
the Python set `ensemble_domaines` (membership is all the script uses
before sorting); `manquants` accumulates `domaines_manquants`. -/
def boucleChargement : Nat → List Str → List Str → List Str →
    List Str × List Str
  | _, [], ensemble, manquants => (ensemble, manquants)
  | i, ligneBrute :: reste, ensemble, manquants =>
    let ligne := pyStrip ligneBrute
    if ligne.isEmpty then boucleChargement (i + 1) reste ensemble manquants
    else
      let partie0 :=
        if ligne.contains 9 then ligne.takeWhile (fun c => c != 9)
        else (pySplitWs ligne).headD []
      let partie_domaine := pyStrip partie0
      if partie_domaine.isEmpty then
        boucleChargement (i + 1) reste ensemble manquants
      else
        let domaine := nettoyer partie_domaine
        if tldValides.any (fun tld => tld.isSuffixOf domaine) then
          boucleChargement (i + 1) reste
            (if domaine ∈ ensemble then ensemble else domaine :: ensemble)
            manquants
        else
          if !ligne.isEmpty && !((lit "#").isPrefixOf ligne)
              && !(!ligne.isEmpty && ligne.all pyEstEspace) then
            boucleChargement (i + 1) reste ensemble
              (manquants ++ [formatRejet i ligne])
          else boucleChargement (i + 1) reste ensemble manquants

/-- `__init__` followed by `charger_domaines`, as a function of the file
content (given as its list of lines): count the non-empty lines, run the
per-line loop from the freshly initialised empty state, and sort the
accepted set. -/
def charger_domaines (lignes : List Str) : EtatChargeur :=
  let lignes_brutes := (lignes.filter (fun l => !(pyStrip l).isEmpty)).length
  let resultat := boucleChargement 1 lignes [] []
  { lignes_brutes := lignes_brutes
    domaines := List.insertionSort (· ≤ ·) resultat.1
    domaines_manquants := resultat.2 }

/-- The five category labels of the analysis loop. -/
inductive Categorie where
  | ministere
  | region
  | service
  | prefecture
  | environnement
deriving DecidableEq

/-- The keyword list `mots_cles_ministere` of lines 108..110. -/
def motsClesMinistere : List Str :=
  [ lit "agriculture", lit "culture", lit "defense", lit "education",
    lit "economie", lit "sante", lit "interieur", lit "justice",
    lit "travail", lit "environnement", lit "logement", lit "outre-mer",
    lit "fonction-publique", lit "sports", lit "budget"]

/-- The keyword list `mots_cles_region` of lines 111..115. -/
def motsClesRegion : List Str :=
  [ lit "alsace", lit "aquitaine", lit "bretagne", lit "corse",
    lit "normandie", lit "provence", lit "lorraine", lit "bourgogne",
    lit "centre", lit "auvergne", lit "franche-comte", lit "languedoc",
    lit "limousin", lit "midi-pyrenees", lit "picardie",
    lit "poitou-charentes", lit "rhone-alpes", lit "paca", lit "reunion",
    lit "guadeloupe", lit "martinique", lit "guyane", lit "iledefrance"]

/-- The keyword list `mots_cles_service` of lines 116..117. -/
def motsClesService : List Str :=
  [ lit "service-public", lit "impots", lit "douane", lit "legifrance",
    lit "data.gouv", lit "moncompteformation", lit "francetravail",
    lit "ants", lit "ameli", lit "pole-emploi"]

/-- Line 122 of the script: some ministry keyword occurs in the domain. -/
def estMinistere (d : Str) : Bool := motsClesMinistere.any (fun mc => contient d mc)

/-- Line 124 of the script: some region keyword occurs in the domain. -/
def estRegion (d : Str) : Bool := motsClesRegion.any (fun mc => contient d mc)

/-- Line 126 of the script: some service keyword occurs in the domain. -/
def estService (d : Str) : Bool := motsClesService.any (fun mc => contient d mc)

/-- Line 128 of the script: `.pref.` occurs in the domain. -/
def estPrefecture (d : Str) : Bool := contient d (lit ".pref.")

/-- Line 130 of the script: `developpement-durable` or `ecologie.` occurs
in the domain. -/
def estEnvironnement (d : Str) : Bool :=
  contient d (lit "developpement-durable") || contient d (lit "ecologie.")

/-- Lines 120..131 of the script: the set `categories` built for one
domain, as the list of the labels whose test holds (each label is added at
most once, so the list is the set). -/
def categoriesDe (d : Str) : List Categorie :=
  (if estMinistere d then [Categorie.ministere] else []) ++
  (if estRegion d then [Categorie.region] else []) ++
  (if estService d then [Categorie.service] else []) ++
  (if estPrefecture d then [Categorie.prefecture] else []) ++
  (if estEnvironnement d then [Categorie.environnement] else [])

/-- The five counters updated by the analysis loop of lines 119..145. -/
structure CompteCat where
  ministere_uniquement : Nat
  region_uniquement : Nat
  service_uniquement : Nat
  prefecture_uniquement : Nat
  nombre_chevauchement : Nat
deriving DecidableEq

/-- Lines 133..145 of the script: the counter updates for one domain.
A singleton category set bumps the matching "uniquely" counter (none for
`environnement`, which the if/elif chain does not mention); two or more
categories bump the overlap counter; zero bump nothing. -/
def majCompte (acc : CompteCat) (d : Str) : CompteCat :=
  let categories := categoriesDe d
  if categories.length = 1 then
    match categories with
    | [Categorie.ministere] =>
      { acc with ministere_uniquement := acc.ministere_uniquement + 1 }
    | [Categorie.region] =>
      { acc with region_uniquement := acc.region_uniquement + 1 }
    | [Categorie.service] =>
      { acc with service_uniquement := acc.service_uniquement + 1 }
    | [Categorie.prefecture] =>
      { acc with prefecture_uniquement := acc.prefecture_uniquement + 1 }
    | _ => acc
  else if 1 < categories.length then
    { acc with nombre_chevauchement := acc.nombre_chevauchement + 1 }
  else acc

/-- Python `max(domaines, key=len)` guarded by `if domaines else ''`:
the first domain of maximal length, the empty string on an empty list. -/
def maxParLongueur : List Str → Str
  | [] => []
  | d :: ds => ds.foldl (fun acc x => if acc.length < x.length then x else acc) d

/-- Python `min(domaines, key=len)` guarded by `if domaines else ''`:
the first domain of minimal length, the empty string on an empty list. -/
def minParLongueur : List Str → Str
  | [] => []
  | d :: ds => ds.foldl (fun acc x => if x.length < acc.length then x else acc) d

/-- Python `round(q, 1)`: round to one decimal, ties to even. -/
def pyRound1 (q : ℚ) : ℚ :=
  let n : Int := ⌊q * 10⌋
  let r : ℚ := q * 10 - n
  ((if r < 1/2 then n else if 1/2 < r then n + 1
    else if Even n then n else n + 1 : Int) : ℚ) / 10

/-- Python `sum(1 for d in l if p d)`. -/
def compteSi (p : Str → Bool) (l : List Str) : Nat :=
  l.foldl (fun n d => if p d then n + 1 else n) 0

/-- The list `domaines_critiques` of lines 155..161. -/
def domainesCritiques : List Str :=
  [ lit "economie.gouv.fr", lit "interieur.gouv.fr", lit "education.gouv.fr",
    lit "sante.gouv.fr", lit "defense.gouv.fr", lit "justice.gouv.fr",
    lit "travail.gouv.fr", lit "culture.gouv.fr", lit "agriculture.gouv.fr",
    lit "service-public.fr", lit "impots.gouv.fr", lit "francetravail.fr",
    lit "gouvernement.fr", lit "elysee.fr", lit "assemblee-nationale.fr"]

/-- The dictionary returned by `analyser`, one field per key. -/
structure Analyse where
  total_domaines : Nat
  lignes_brutes : Nat
  nombre_manquant : Int
  ministere_uniquement : Nat
  region_uniquement : Nat
  service_uniquement : Nat
  prefecture_uniquement : Nat
  nombre_chevauchement : Nat
  nombre_ministere : Nat
  nombre_region : Nat
  nombre_service : Nat
  nombre_prefecture : Nat
  nombre_developpement : Nat
  domaine_plus_long : Str
  domaine_plus_court : Str
  longueur_moyenne : ℚ
  manquants_critiques : List Str

/-- Lines 78..164 of the script: the full analysis of the loaded state.
The category loop of lines 119..145 is the fold of `majCompte`; the raw
totals of lines 148..152 are independent scans; the length statistics and
the critical-domain check follow lines 101..103 and 162. -/
def analyser (etat : EtatChargeur) : Analyse :=
  let cc := etat.domaines.foldl majCompte ⟨0, 0, 0, 0, 0⟩
  { total_domaines := etat.domaines.length
    lignes_brutes := etat.lignes_brutes
    nombre_manquant := (etat.lignes_brutes : Int) - (etat.domaines.length : Int)
    ministere_uniquement := cc.ministere_uniquement
    region_uniquement := cc.region_uniquement
    service_uniquement := cc.service_uniquement
    prefecture_uniquement := cc.prefecture_uniquement
    nombre_chevauchement := cc.nombre_chevauchement
    nombre_ministere := compteSi estMinistere etat.domaines
    nombre_region := compteSi estRegion etat.domaines
    nombre_service := compteSi estService etat.domaines
    nombre_prefecture := compteSi (fun d => contient d (lit ".pref.")) etat.domaines
    nombre_developpement :=
      compteSi (fun d => contient d (lit "developpement-durable")) etat.domaines
    domaine_plus_long := maxParLongueur etat.domaines
    domaine_plus_court := minParLongueur etat.domaines
    longueur_moyenne :=
      if etat.domaines.isEmpty then 0
      else
        pyRound1 (((etat.domaines.map List.length).sum : ℚ) /
          (etat.domaines.length : ℚ))
    manquants_critiques :=
      domainesCritiques.filter (fun d => decide (d ∉ etat.domaines)) }

/-- The loop of lines 34..57 again, with the one partial Python operation
made explicit: `ligne.split()[0]` indexes into a list that is empty when
`ligne` is all whitespace, which would raise `IndexError` and land in the
`except` branch of lines 61..63.  Here that indexing is `List.head?` and a
`none` aborts the whole loop. -/
def boucleChargementOpt : Nat → List Str → List Str → List Str →
    Option (List Str × List Str)
  | _, [], ensemble, manquants => some (ensemble, manquants)
  | i, ligneBrute :: reste, ensemble, manquants =>
    let ligne := pyStrip ligneBrute
    if ligne.isEmpty then boucleChargementOpt (i + 1) reste ensemble manquants
    else
      match
        (if ligne.contains 9 then some (ligne.takeWhile (fun c => c != 9))
         else (pySplitWs ligne).head?) with
      | none => none
      | some partie0 =>
        let partie_domaine := pyStrip partie0
        if partie_domaine.isEmpty then
          boucleChargementOpt (i + 1) reste ensemble manquants
        else
          let domaine := nettoyer partie_domaine
          if tldValides.any (fun tld => tld.isSuffixOf domaine) then
            boucleChargementOpt (i + 1) reste
              (if domaine ∈ ensemble then ensemble else domaine :: ensemble)
              manquants
          else
            if !ligne.isEmpty && !((lit "#").isPrefixOf ligne)
                && !(!ligne.isEmpty && ligne.all pyEstEspace) then
              boucleChargementOpt (i + 1) reste ensemble
                (manquants ++ [formatRejet i ligne])
            else boucleChargementOpt (i + 1) reste ensemble manquants

/-- The loader with the fallible indexing of `boucleChargementOpt`;
`none` stands for the fatal `except` branch being reached from the
per-line processing. -/
def chargerOpt (lignes : List Str) : Option EtatChargeur :=
  (boucleChargementOpt 1 lignes [] []).map fun resultat =>
    { lignes_brutes := (lignes.filter (fun l => !(pyStrip l).isEmpty)).length
      domaines := List.insertionSort (· ≤ ·) resultat.1
      domaines_manquants := resultat.2 }

/-- The category set the SPECIFICATION uses for the single-vs-multi
computation: only the four primary categories, environment excluded.
This follows the words of the spec, to be compared with `categoriesDe`,
which follows the code of lines 120..131. -/
def categoriesPrimairesSpec (d : Str) : List Categorie :=
  (if estMinistere d then [Categorie.ministere] else []) ++
  (if estRegion d then [Categorie.region] else []) ++
  (if estService d then [Categorie.service] else []) ++
  (if estPrefecture d then [Categorie.prefecture] else [])

/-- The category set of a domain is exactly the singleton `ministere`. -/
def seulMinistere (d : Str) : Bool := decide (categoriesDe d = [Categorie.ministere])

/-- The category set of a domain is exactly the singleton `region`. -/
def seulRegion (d : Str) : Bool := decide (categoriesDe d = [Categorie.region])

/-- The category set of a domain is exactly the singleton `service`. -/
def seulService (d : Str) : Bool := decide (categoriesDe d = [Categorie.service])

/-- The category set of a domain is exactly the singleton `prefecture`. -/
def seulPrefecture (d : Str) : Bool := decide (categoriesDe d = [Categorie.prefecture])

/-- The category set of a domain has two or more members. -/
def multiCategories (d : Str) : Bool := decide (2 ≤ (categoriesDe d).length)

/-- Python `str.lower` is idempotent on single characters. -/
theorem pyLower_idem (c : Nat) : pyLower (pyLower c) = pyLower c := by
  unfold pyLower
  split <;> (try split) <;> omega

/-- Every character of a `pyReplace` output occurs in its input. -/
theorem mem_remplaceAux {ancien : Str} :
    ∀ (fuel : Nat) (s : Str) (c : Nat), c ∈ remplaceAux ancien fuel s → c ∈ s := by
  intro fuel
  induction fuel with
  | zero => intro s c h; cases s <;> simp_all [remplaceAux]
  | succ fuel ih =>
    intro s c h
    cases s with
    | nil => simp_all [remplaceAux]
    | cons a reste =>
      simp only [remplaceAux] at h
      by_cases hp : ancien.isPrefixOf (a :: reste) = true
      · simp only [hp, if_true] at h
        exact List.mem_cons_of_mem a (List.mem_of_mem_drop (ih _ _ h))
      · simp only [hp] at h
        rcases List.mem_cons.mp h with h | h
        · exact h ▸ List.mem_cons_self a reste
        · exact List.mem_cons_of_mem a (ih _ _ h)

/-- A map that fixes every element of a list fixes the list. -/
theorem map_fixe {f : Nat → Nat} : ∀ l : Str, (∀ c ∈ l, f c = c) → l.map f = l := by
  intro l
  induction l with
  | nil => intro _; rfl
  | cons a t ih =>
    intro h
    simp only [List.map_cons]
    rw [h a (List.mem_cons_self a t), ih (fun c hc => h c (List.mem_cons_of_mem a hc))]

/-- The head of a `dropWhile` result falsifies the predicate. -/
theorem dropWhile_tete {p : Nat → Bool} :
    ∀ l : Str, l.dropWhile p = [] ∨
      ∃ c t, l.dropWhile p = c :: t ∧ p c = false := by
  intro l
  induction l with
  | nil => exact Or.inl rfl
  | cons a t ih =>
    by_cases hp : p a = true
    · simpa [List.dropWhile_cons, hp] using ih
    · refine Or.inr ⟨a, t, ?_, by simpa using hp⟩
      simp [List.dropWhile_cons, hp]

/-- A `dropWhile` result is reached by dropping an initial segment. -/
theorem dropWhile_complement {p : Nat → Bool} :
    ∀ l : Str, ∃ u, u ++ l.dropWhile p = l := by
  intro l
  induction l with
  | nil => exact ⟨[], rfl⟩
  | cons a t ih =>
    by_cases hp : p a = true
    · rcases ih with ⟨u, hu⟩
      exact ⟨a :: u, by simp [List.dropWhile_cons, hp, hu]⟩
    · exact ⟨[], by simp [List.dropWhile_cons, hp]⟩

/-- A non-empty stripped line starts with a non-whitespace character. -/
theorem pyStrip_tete {l : Str} (h : pyStrip l ≠ []) :
    ∃ c t, pyStrip l = c :: t ∧ pyEstEspace c = false := by
  rcases dropWhile_tete (p := pyEstEspace) l with h0 | ⟨c, t, h1, h2⟩
  · exact absurd (by simp [pyStrip, trimGauche, trimDroite, h0]) h
  · rcases dropWhile_complement (p := pyEstEspace) ((c :: t).reverse) with ⟨u, hu⟩
    have hs : pyStrip l = ((c :: t).reverse.dropWhile pyEstEspace).reverse := by
      simp [pyStrip, trimGauche, trimDroite, h1]
    rcases hd : ((c :: t).reverse.dropWhile pyEstEspace).reverse with _ | ⟨c2, t2⟩
    · exact absurd (hs.trans hd) h
    · have hrev := congrArg List.reverse hu
      rw [List.reverse_append, List.reverse_reverse, hd] at hrev
      have hc2 : c2 = c := by
        rw [List.cons_append] at hrev
        exact (List.cons.injEq _ _ _ _ ▸ hrev).1
      exact ⟨c, t2, by rw [hs, hd, hc2], h2⟩

/-- Splitting a string that starts with a non-whitespace character yields
at least one word, and the first word is non-empty. -/
theorem pySplitWs_tete {c : Nat} {t : Str} (hc : pyEstEspace c = false) :
    ∃ tok reste2, pySplitWs (c :: t) = tok :: reste2 ∧ tok ≠ [] := by
  have h1 : pySplitWs (c :: t) = (c :: t).takeWhile (fun x => !pyEstEspace x) ::
      motsAux t.length ((c :: t).dropWhile (fun x => !pyEstEspace x)) := by
    simp [pySplitWs, motsAux, hc]
  refine ⟨_, _, h1, ?_⟩
  simp [List.takeWhile_cons, hc]

theorem boucle_ensemble_mem :
    ∀ (lignes : List Str) (i : Nat) (ens mq : List Str) (d : Str),
      d ∈ (boucleChargement i lignes ens mq).1 →
      d ∈ ens ∨ ((∃ p, d = nettoyer p) ∧
        tldValides.any (fun tld => tld.isSuffixOf d) = true) := by
  intro lignes
  induction lignes with
  | nil => intro i ens mq d h; exact Or.inl h
  | cons lb reste ih =>
    intro i ens mq d h
    simp only [boucleChargement] at h
    split at h
    case isTrue => exact ih _ _ _ _ h
    case isFalse =>
      split at h <;>
      · split at h
        · exact ih _ _ _ _ h
        · split at h
          · rcases ih _ _ _ _ h with hin | hP
            · split at hin
              · exact Or.inl hin
              · rcases List.mem_cons.mp hin with rfl | hin2
                · rename_i htld hnotin
                  exact Or.inr ⟨⟨_, rfl⟩, htld⟩
                · exact Or.inl hin2
            · exact Or.inr hP
          · split at h
            · exact ih _ _ _ _ h
            · exact ih _ _ _ _ h

theorem boucle_ensemble_nodup :
    ∀ (lignes : List Str) (i : Nat) (ens mq : List Str),
      ens.Nodup → (boucleChargement i lignes ens mq).1.Nodup := by
  intro lignes
  induction lignes with
  | nil => intro i ens mq h; exact h
  | cons lb reste ih =>
    intro i ens mq hnd
    simp only [boucleChargement]
    split
    case isTrue => exact ih _ _ _ hnd
    case isFalse =>
      split <;>
      · split
        · exact ih _ _ _ hnd
        · split
          · apply ih
            split
            · exact hnd
            · rename_i hnotin
              exact List.nodup_cons.mpr ⟨hnotin, hnd⟩
          · split
            · exact ih _ _ _ hnd
            · exact ih _ _ _ hnd

theorem boucle_ensemble_length :
    ∀ (lignes : List Str) (i : Nat) (ens mq : List Str),
      (boucleChargement i lignes ens mq).1.length ≤
        ens.length + (lignes.filter (fun l => !(pyStrip l).isEmpty)).length := by
  intro lignes
  induction lignes with
  | nil => intro i ens mq; simp [boucleChargement]
  | cons lb reste ih =>
    intro i ens mq
    by_cases hv : (pyStrip lb).isEmpty = true
    · have hf0 : (!(pyStrip lb).isEmpty) = false := by simp [hv]
      simp only [boucleChargement, hv, if_true, List.filter_cons, hf0]
      simpa using ih (i + 1) ens mq
    · have hb : (!(pyStrip lb).isEmpty) = true := by
        simp only [Bool.not_eq_true'] at hv ⊢
        simpa using hv
      simp only [boucleChargement, List.filter_cons, hb, if_true]
      rw [if_neg hv]
      split <;>
      · split
        · refine le_trans (ih (i + 1) ens mq) ?_
          simp only [List.length_cons]
          omega
        · split
          · refine le_trans (ih (i + 1) _ mq) ?_
            split <;> simp only [List.length_cons] <;> omega
          · split
            · refine le_trans (ih (i + 1) ens _) ?_
              simp only [List.length_cons]
              omega
            · refine le_trans (ih (i + 1) ens mq) ?_
              simp only [List.length_cons]
              omega

theorem boucle_manquants_mem :
    ∀ (lignes : List Str) (i : Nat) (ens mq : List Str) (r : Str),
      r ∈ (boucleChargement i lignes ens mq).2 →
      r ∈ mq ∨ ∃ j lb, lignes[j]? = some lb ∧ r = formatRejet (i + j) (pyStrip lb) := by
  intro lignes
  induction lignes with
  | nil => intro i ens mq r h; exact Or.inl h
  | cons lb reste ih =>
    intro i ens mq r h
    have decale : ∀ (mq2 : List Str),
        (r ∈ mq2 ∨ ∃ j lb2, reste[j]? = some lb2 ∧
          r = formatRejet (i + 1 + j) (pyStrip lb2)) →
        r ∈ mq2 ∨ ∃ j lb2, (lb :: reste)[j]? = some lb2 ∧
          r = formatRejet (i + j) (pyStrip lb2) := by
      intro mq2 hcas
      rcases hcas with hm | ⟨j, lb2, hj, hr⟩
      · exact Or.inl hm
      · refine Or.inr ⟨j + 1, lb2, by simpa using hj, ?_⟩
        have : i + (j + 1) = i + 1 + j := by omega
        rw [this]
        exact hr
    simp only [boucleChargement] at h
    split at h
    case isTrue => exact decale mq (ih _ _ _ _ h)
    case isFalse =>
      split at h <;>
      · split at h
        · exact decale mq (ih _ _ _ _ h)
        · split at h
          · exact decale mq (ih _ _ _ _ h)
          · split at h
            · rcases decale _ (ih _ _ _ _ h) with hm | hx
              · rcases List.mem_append.mp hm with hm2 | hm2
                · exact Or.inl hm2
                · refine Or.inr ⟨0, lb, by simp, ?_⟩
                  simpa using List.mem_singleton.mp hm2
              · exact Or.inr hx
            · exact decale mq (ih _ _ _ _ h)

theorem boucleOpt_eq :
    ∀ (lignes : List Str) (i : Nat) (ens mq : List Str),
      boucleChargementOpt i lignes ens mq =
        some (boucleChargement i lignes ens mq) := by
  intro lignes
  induction lignes with
  | nil => intro i ens mq; rfl
  | cons lb reste ih =>
    intro i ens mq
    simp only [boucleChargement, boucleChargementOpt]
    by_cases hv : (pyStrip lb).isEmpty = true
    · simp only [hv, if_true]
      exact ih _ _ _
    · rw [if_neg hv, if_neg hv]
      have corps : ∀ p : Str,
          (if (pyStrip p).isEmpty then
            boucleChargementOpt (i + 1) reste ens mq
          else
            if tldValides.any (fun tld => tld.isSuffixOf (nettoyer (pyStrip p))) then
              boucleChargementOpt (i + 1) reste
                (if nettoyer (pyStrip p) ∈ ens then ens
                 else nettoyer (pyStrip p) :: ens) mq
            else
              if !(pyStrip lb).isEmpty && !((lit "#").isPrefixOf (pyStrip lb))
                  && !(!(pyStrip lb).isEmpty && (pyStrip lb).all pyEstEspace) then
                boucleChargementOpt (i + 1) reste ens
                  (mq ++ [formatRejet i (pyStrip lb)])
              else boucleChargementOpt (i + 1) reste ens mq) =
          some (if (pyStrip p).isEmpty then
            boucleChargement (i + 1) reste ens mq
          else
            if tldValides.any (fun tld => tld.isSuffixOf (nettoyer (pyStrip p))) then
              boucleChargement (i + 1) reste
                (if nettoyer (pyStrip p) ∈ ens then ens
                 else nettoyer (pyStrip p) :: ens) mq
            else
              if !(pyStrip lb).isEmpty && !((lit "#").isPrefixOf (pyStrip lb))
                  && !(!(pyStrip lb).isEmpty && (pyStrip lb).all pyEstEspace) then
                boucleChargement (i + 1) reste ens
                  (mq ++ [formatRejet i (pyStrip lb)])
              else boucleChargement (i + 1) reste ens mq) := by
        intro p
        by_cases h1 : (pyStrip p).isEmpty = true
        · simp only [h1, if_true]
          exact ih _ _ _
        · rw [if_neg h1, if_neg h1]
          by_cases h2 : tldValides.any
              (fun tld => tld.isSuffixOf (nettoyer (pyStrip p))) = true
          · rw [if_pos h2, if_pos h2]
            exact ih _ _ _
          · rw [if_neg h2, if_neg h2]
            by_cases h3 : (!(pyStrip lb).isEmpty && !((lit "#").isPrefixOf (pyStrip lb))
                && !(!(pyStrip lb).isEmpty && (pyStrip lb).all pyEstEspace)) = true
            · rw [if_pos h3, if_pos h3]
              exact ih _ _ _
            · rw [if_neg h3, if_neg h3]
              exact ih _ _ _
      by_cases hc : (pyStrip lb).contains 9 = true
      · rw [if_pos hc, if_pos hc]
        exact corps _
      · rw [if_neg hc, if_neg hc]
        have hne : pyStrip lb ≠ [] := by
          intro hx
          rw [hx] at hv
          exact hv rfl
        rcases pyStrip_tete hne with ⟨c, t, hct, hcsp⟩
        rcases pySplitWs_tete hcsp with ⟨tok, reste2, hsp, htok⟩
        have hsp2 : pySplitWs (pyStrip lb) = tok :: reste2 := by
          rw [hct]
          exact hsp
        rw [hsp2]
        simp only [List.head?_cons, List.headD_cons]
        exact corps tok

/-- Effect of one step of the category loop on each counter. -/
theorem majCompte_champs (acc : CompteCat) (d : Str) :
    (majCompte acc d).ministere_uniquement = acc.ministere_uniquement +
        (if seulMinistere d then 1 else 0) ∧
    (majCompte acc d).region_uniquement = acc.region_uniquement +
        (if seulRegion d then 1 else 0) ∧
    (majCompte acc d).service_uniquement = acc.service_uniquement +
        (if seulService d then 1 else 0) ∧
    (majCompte acc d).prefecture_uniquement = acc.prefecture_uniquement +
        (if seulPrefecture d then 1 else 0) ∧
    (majCompte acc d).nombre_chevauchement = acc.nombre_chevauchement +
        (if multiCategories d then 1 else 0) := by
  rcases hcat : categoriesDe d with _ | ⟨c, _ | ⟨c2, t⟩⟩
  · simp [majCompte, hcat, seulMinistere, seulRegion, seulService,
      seulPrefecture, multiCategories]
  · cases c <;>
      simp [majCompte, hcat, seulMinistere, seulRegion, seulService,
        seulPrefecture, multiCategories]
  · simp [majCompte, hcat, seulMinistere, seulRegion, seulService,
      seulPrefecture, multiCategories]

/-- The category loop counts, for each counter, the matching domains. -/
theorem foldl_majCompte (ds : List Str) :
    ∀ acc : CompteCat,
      (ds.foldl majCompte acc).ministere_uniquement = acc.ministere_uniquement +
        ds.countP seulMinistere ∧
      (ds.foldl majCompte acc).region_uniquement = acc.region_uniquement +
        ds.countP seulRegion ∧
      (ds.foldl majCompte acc).service_uniquement = acc.service_uniquement +
        ds.countP seulService ∧
      (ds.foldl majCompte acc).prefecture_uniquement = acc.prefecture_uniquement +
        ds.countP seulPrefecture ∧
      (ds.foldl majCompte acc).nombre_chevauchement = acc.nombre_chevauchement +
        ds.countP multiCategories := by
  induction ds with
  | nil => intro acc; simp
  | cons d ds ih =>
    intro acc
    simp only [List.foldl_cons, List.countP_cons]
    rcases ih (majCompte acc d) with ⟨h1, h2, h3, h4, h5⟩
    rcases majCompte_champs acc d with ⟨g1, g2, g3, g4, g5⟩
    exact ⟨by rw [h1, g1]; omega, by rw [h2, g2]; omega, by rw [h3, g3]; omega,
      by rw [h4, g4]; omega, by rw [h5, g5]; omega⟩

/-- A domain bumps at most one of the five counters. -/
theorem categories_exclusives (d : Str) :
    (if seulMinistere d then 1 else 0) + (if seulRegion d then 1 else 0) +
    (if seulService d then 1 else 0) + (if seulPrefecture d then 1 else 0) +
    (if multiCategories d then 1 else 0) ≤ 1 := by
  rcases hcat : categoriesDe d with _ | ⟨c, _ | ⟨c2, t⟩⟩
  · simp [seulMinistere, seulRegion, seulService, seulPrefecture,
      multiCategories, hcat]
  · cases c <;>
      simp [seulMinistere, seulRegion, seulService, seulPrefecture,
        multiCategories, hcat]
  · simp [seulMinistere, seulRegion, seulService, seulPrefecture,
      multiCategories, hcat]

/-- The five per-domain counts sum to at most the number of domains. -/
theorem somme_countP_le (ds : List Str) :
    ds.countP seulMinistere + ds.countP seulRegion + ds.countP seulService +
    ds.countP seulPrefecture + ds.countP multiCategories ≤ ds.length := by
  induction ds with
  | nil => simp
  | cons d t ih =>
    simp only [List.countP_cons, List.length_cons]
    have := categories_exclusives d
    omega

/-- The counting fold agrees with `List.countP`. -/
theorem compteSi_eq_countP (p : Str → Bool) (l : List Str) :
    compteSi p l = l.countP p := by
  have aux : ∀ (l2 : List Str) (n : Nat),
      l2.foldl (fun n d => if p d then n + 1 else n) n = n + l2.countP p := by
    intro l2
    induction l2 with
    | nil => intro n; simp
    | cons a t ih =>
      intro n
      simp only [List.foldl_cons, List.countP_cons]
      by_cases hp : p a = true
      · rw [if_pos hp, ih, if_pos hp]
        omega
      · rw [if_neg hp, ih, if_neg hp]
        omega
  simpa [compteSi] using aux l 0

/-- Normalized tokens are lowercase: lowering is idempotent and the later
steps only remove characters. -/
theorem nettoyer_minuscule (p : Str) : (nettoyer p).map pyLower = nettoyer p := by
  apply map_fixe
  intro c hc
  have hc2 : c ∈ pyReplace (lit "www.") (p.map pyLower) := List.mem_of_mem_filter hc
  simp only [pyReplace] at hc2
  have hc3 : c ∈ p.map pyLower := mem_remplaceAux _ _ _ hc2
  rcases List.mem_map.mp hc3 with ⟨b, _, rfl⟩
  exact pyLower_idem b

/-- Normalized tokens contain only printable non-whitespace characters. -/
theorem nettoyer_propre {p : Str} {c : Nat} (hc : c ∈ nettoyer p) :
    pyEstImprimable c = true ∧ pyEstEspace c = false := by
  have h := List.of_mem_filter hc
  simp only [Bool.and_eq_true, Bool.not_eq_true'] at h
  exact h

/-- Every accepted domain is a normalized token that passed the suffix
check. -/
theorem charger_domaines_mem {lignes : List Str} {d : Str}
    (h : d ∈ (charger_domaines lignes).domaines) :
    (∃ p, d = nettoyer p) ∧
      tldValides.any (fun tld => tld.isSuffixOf d) = true := by
  have hins : d ∈ List.insertionSort (· ≤ ·) (boucleChargement 1 lignes [] []).1 := h
  have hmem : d ∈ (boucleChargement 1 lignes [] []).1 :=
    (List.perm_insertionSort (· ≤ ·) _).mem_iff.mp hins
  rcases boucle_ensemble_mem _ _ _ _ _ hmem with hin | hP
  · exact absurd hin (List.not_mem_nil d)
  · exact hP

/-- C1, counterexample.  The domain `ecologie.sante.gouv.fr` belongs to
exactly one of the four primary categories (ministry, via `sante`), so the
claim demands a ministry-uniquely increment and no overlap increment; the
code also assigns the environment category (via `ecologie.`), puts two
labels in `categories`, and increments the overlap counter instead. -/
theorem claim_C1_contre :
    (charger_domaines [lit "ecologie.sante.gouv.fr"]).domaines =
      [lit "ecologie.sante.gouv.fr"] ∧
    categoriesPrimairesSpec (lit "ecologie.sante.gouv.fr") =
      [Categorie.ministere] ∧
    (analyser (charger_domaines
      [lit "ecologie.sante.gouv.fr"])).ministere_uniquement = 0 ∧
    (analyser (charger_domaines
      [lit "ecologie.sante.gouv.fr"])).nombre_chevauchement = 1 := by
  refine ⟨by decide, by decide, by decide, by decide⟩

/-- C1, amended.  The analysis loop includes the environment category in
the single-vs-multi computation: the overlap counter counts the accepted
domains whose category set among all FIVE categories has two or more
members, and each "uniquely" counter counts the domains whose category
set is exactly the corresponding primary singleton (a domain whose only
category is environment increments nothing). -/
theorem claim_C1_corrige (etat : EtatChargeur) :
    (analyser etat).nombre_chevauchement =
      etat.domaines.countP multiCategories ∧
    (analyser etat).ministere_uniquement =
      etat.domaines.countP seulMinistere ∧
    (analyser etat).region_uniquement =
      etat.domaines.countP seulRegion ∧
    (analyser etat).service_uniquement =
      etat.domaines.countP seulService ∧
    (analyser etat).prefecture_uniquement =
      etat.domaines.countP seulPrefecture := by
  rcases foldl_majCompte etat.domaines ⟨0, 0, 0, 0, 0⟩ with ⟨h1, h2, h3, h4, h5⟩
  refine ⟨?_, ?_, ?_, ?_, ?_⟩
  · show (etat.domaines.foldl majCompte ⟨0, 0, 0, 0, 0⟩).nombre_chevauchement = _
    rw [h5]
    simp
  · show (etat.domaines.foldl majCompte ⟨0, 0, 0, 0, 0⟩).ministere_uniquement = _
    rw [h1]
    simp
  · show (etat.domaines.foldl majCompte ⟨0, 0, 0, 0, 0⟩).region_uniquement = _
    rw [h2]
    simp
  · show (etat.domaines.foldl majCompte ⟨0, 0, 0, 0, 0⟩).service_uniquement = _
    rw [h3]
    simp
  · show (etat.domaines.foldl majCompte ⟨0, 0, 0, 0, 0⟩).prefecture_uniquement = _
    rw [h4]
    simp

/-- C1, witness: the amended characterization evaluated on a loaded
two-domain state. -/
theorem claim_C1_corrige_temoin :
    (analyser (charger_domaines [lit "ecologie.sante.gouv.fr",
      lit "sante.gouv.fr"])).nombre_chevauchement =
    (charger_domaines [lit "ecologie.sante.gouv.fr",
      lit "sante.gouv.fr"]).domaines.countP multiCategories :=
  (claim_C1_corrige _).1

/-- C2, counterexample.  On the single line `wwwwww..fr` the loader
accepts the domain `www.fr`, which contains the substring `www.`: the
single left-to-right pass of `replace('www.', '')` removes the middle
occurrence and the removal glues a new `www.` together. -/
theorem claim_C2_contre :
    (charger_domaines [lit "wwwwww..fr"]).domaines = [lit "www.fr"] ∧
    contient (lit "www.fr") (lit "www.") = true := by
  refine ⟨by decide, by decide⟩

/-- C2, amended.  Every accepted domain is lowercase, contains no
whitespace or non-printable character, ends with one of the six fixed
suffixes, and is the image of some token under the normalization
(lowercase, one-pass `www.` removal, character filter); the one-pass
removal does not guarantee the absence of the substring `www.`. -/
theorem claim_C2_corrige (lignes : List Str) (d : Str)
    (h : d ∈ (charger_domaines lignes).domaines) :
    d.map pyLower = d ∧
    (∀ c ∈ d, pyEstImprimable c = true ∧ pyEstEspace c = false) ∧
    tldValides.any (fun tld => tld.isSuffixOf d) = true ∧
    ∃ p, d = nettoyer p := by
  rcases charger_domaines_mem h with ⟨⟨p, rfl⟩, htld⟩
  exact ⟨nettoyer_minuscule p, fun c hc => nettoyer_propre hc, htld, p, rfl⟩

/-- C2, witness: the amended invariants evaluated on an accepted domain. -/
theorem claim_C2_corrige_temoin :
    (lit "sante.gouv.fr").map pyLower = lit "sante.gouv.fr" ∧
    (∀ c ∈ lit "sante.gouv.fr",
      pyEstImprimable c = true ∧ pyEstEspace c = false) ∧
    tldValides.any (fun tld => tld.isSuffixOf (lit "sante.gouv.fr")) = true ∧
    ∃ p, lit "sante.gouv.fr" = nettoyer p :=
  claim_C2_corrige [lit "WWW.Sante.Gouv.Fr  "] (lit "sante.gouv.fr") (by decide)

/-- C3, counterexample.  The accepted domain `ecologie.gouv.fr` passes
the environment membership test (substring `ecologie.`), but the
independent total `nombre_developpement` is 0: line 152 tests only the
substring `developpement-durable`, not the category test of line 130. -/
theorem claim_C3_contre :
    (charger_domaines [lit "ecologie.gouv.fr"]).domaines =
      [lit "ecologie.gouv.fr"] ∧
    estEnvironnement (lit "ecologie.gouv.fr") = true ∧
    (charger_domaines [lit "ecologie.gouv.fr"]).domaines.countP
      estEnvironnement = 1 ∧
    (analyser (charger_domaines
      [lit "ecologie.gouv.fr"])).nombre_developpement = 0 := by
  refine ⟨by decide, by decide, by decide, by decide⟩

/-- C3, amended.  The independently computed `nombre_developpement` total
counts the accepted domains containing the substring
`developpement-durable` only; domains matching only `ecologie.` are part
of the environment category but not of this total. -/
theorem claim_C3_corrige (etat : EtatChargeur) :
    (analyser etat).nombre_developpement =
      etat.domaines.countP (fun d => contient d (lit "developpement-durable")) := by
  show compteSi (fun d => contient d (lit "developpement-durable")) etat.domaines = _
  exact compteSi_eq_countP _ _

/-- C3, witness: the amended total evaluated on a loaded state. -/
theorem claim_C3_corrige_temoin :
    (analyser (charger_domaines [lit "developpement-durable.gouv.fr",
      lit "ecologie.gouv.fr"])).nombre_developpement =
    (charger_domaines [lit "developpement-durable.gouv.fr",
      lit "ecologie.gouv.fr"]).domaines.countP
        (fun d => contient d (lit "developpement-durable")) :=
  claim_C3_corrige _

/-- C4.  The loader is deterministic: as a function of the file content
(its list of lines, starting from the freshly initialised state of
`__init__`), equal contents give equal accepted sequences and equal
rejection lists. -/
theorem claim_C4 (lignes1 lignes2 : List Str) (h : lignes1 = lignes2) :
    (charger_domaines lignes1).domaines = (charger_domaines lignes2).domaines ∧
    (charger_domaines lignes1).domaines_manquants =
      (charger_domaines lignes2).domaines_manquants := by
  subst h
  exact ⟨rfl, rfl⟩

/-- C4, witness: the two runs compared on a concrete content. -/
theorem claim_C4_temoin :
    (charger_domaines [lit "a.fr", lit "xyz"]).domaines =
      (charger_domaines [lit "a.fr", lit "xyz"]).domaines ∧
    (charger_domaines [lit "a.fr", lit "xyz"]).domaines_manquants =
      (charger_domaines [lit "a.fr", lit "xyz"]).domaines_manquants :=
  claim_C4 [lit "a.fr", lit "xyz"] [lit "a.fr", lit "xyz"] rfl

/-- C5.  On the single line `notadomain` the loader accepts nothing and
records exactly `Ligne 1: notadomain...`; in general every rejection
record is `formatRejet` of the 1-based line number and the stripped line,
that is the literal text Ligne, the number, a colon, the first 50
characters of the stripped line and a literal `...` even when the line is
shorter. -/
theorem claim_C5 :
    (charger_domaines [lit "notadomain"]).domaines = [] ∧
    (charger_domaines [lit "notadomain"]).domaines_manquants =
      [lit "Ligne 1: notadomain..."] ∧
    ∀ (lignes : List Str) (r : Str),
      r ∈ (charger_domaines lignes).domaines_manquants →
      ∃ j lb, lignes[j]? = some lb ∧ r = formatRejet (j + 1) (pyStrip lb) := by
  refine ⟨by decide, by decide, ?_⟩
  intro lignes r h
  have h2 : r ∈ (boucleChargement 1 lignes [] []).2 := h
  rcases boucle_manquants_mem lignes 1 [] [] r h2 with hm | ⟨j, lb, hj, hr⟩
  · exact absurd hm (List.not_mem_nil r)
  · refine ⟨j, lb, hj, ?_⟩
    have : 1 + j = j + 1 := by omega
    rw [← this]
    exact hr

/-- C5, witness: the general record format applied to the scenario. -/
theorem claim_C5_temoin :
    ∃ j lb, [lit "notadomain"][j]? = some lb ∧
      lit "Ligne 1: notadomain..." = formatRejet (j + 1) (pyStrip lb) :=
  claim_C5.2.2 [lit "notadomain"] (lit "Ligne 1: notadomain...") (by decide)

/-- C6.  With an empty accepted sequence the analysis returns the empty
string for the longest and shortest domain and 0 for the mean length (the
guards of lines 101..103 avoid `max`, `min` and the division entirely),
and on an empty input file the raw, accepted and missing counts are all
0; every function involved is total, so no failure is possible. -/
theorem claim_C6 :
    (∀ etat : EtatChargeur, etat.domaines = [] →
      (analyser etat).domaine_plus_long = [] ∧
      (analyser etat).domaine_plus_court = [] ∧
      (analyser etat).longueur_moyenne = 0) ∧
    (charger_domaines []).lignes_brutes = 0 ∧
    (analyser (charger_domaines [])).total_domaines = 0 ∧
    (analyser (charger_domaines [])).nombre_manquant = 0 ∧
    (analyser (charger_domaines [])).domaine_plus_long = [] ∧
    (analyser (charger_domaines [])).domaine_plus_court = [] ∧
    (analyser (charger_domaines [])).longueur_moyenne = 0 := by
  refine ⟨?_, by decide, by decide, by decide, by decide, by decide, by decide⟩
  intro etat h
  simp [analyser, h, maxParLongueur, minParLongueur]

/-- C6, witness: the empty-sequence defaults on a state with rejections
but no accepted domain. -/
theorem claim_C6_temoin :
    (analyser ⟨7, [], [lit "x"]⟩).domaine_plus_long = [] ∧
    (analyser ⟨7, [], [lit "x"]⟩).domaine_plus_court = [] ∧
    (analyser ⟨7, [], [lit "x"]⟩).longueur_moyenne = 0 :=
  claim_C6.1 ⟨7, [], [lit "x"]⟩ rfl

/-- C7.  The accepted sequence of the loader is strictly sorted in
ascending lexicographic (code point) order, and has no duplicates. -/
theorem claim_C7 (lignes : List Str) :
    List.Sorted (· < ·) (charger_domaines lignes).domaines ∧
    (charger_domaines lignes).domaines.Nodup := by
  have hnd0 : (boucleChargement 1 lignes [] []).1.Nodup :=
    boucle_ensemble_nodup lignes 1 [] [] List.nodup_nil
  have hnd : (List.insertionSort (· ≤ ·)
      (boucleChargement 1 lignes [] []).1).Nodup :=
    ((List.perm_insertionSort _ _).nodup_iff).mpr hnd0
  have hs : List.Sorted (· ≤ ·) (List.insertionSort (· ≤ ·)
      (boucleChargement 1 lignes [] []).1) :=
    List.sorted_insertionSort _ _
  exact ⟨hs.lt_of_le hnd, hnd⟩

/-- C7, witness: strict sortedness on a content with a duplicate and an
out-of-order pair. -/
theorem claim_C7_temoin :
    List.Sorted (· < ·)
      (charger_domaines [lit "b.fr", lit "a.fr", lit "b.fr"]).domaines ∧
    (charger_domaines [lit "b.fr", lit "a.fr", lit "b.fr"]).domaines.Nodup :=
  claim_C7 [lit "b.fr", lit "a.fr", lit "b.fr"]

/-- C8.  The four "uniquely" counters and the overlap counter sum to at
most the accepted count: each domain increments at most one of them. -/
theorem claim_C8 (etat : EtatChargeur) :
    (analyser etat).ministere_uniquement + (analyser etat).region_uniquement +
    (analyser etat).service_uniquement + (analyser etat).prefecture_uniquement +
    (analyser etat).nombre_chevauchement ≤ (analyser etat).total_domaines := by
  rcases foldl_majCompte etat.domaines ⟨0, 0, 0, 0, 0⟩ with ⟨h1, h2, h3, h4, h5⟩
  have hsum := somme_countP_le etat.domaines
  simp only [analyser]
  rw [h1, h2, h3, h4, h5]
  simp only [List.length_nil]
  omega

/-- C8, witness: the bound on a loaded state with an overlap. -/
theorem claim_C8_temoin :
    (analyser (charger_domaines [lit "sante.gouv.fr", lit "impots.gouv.fr",
      lit "sante.reunion.gouv.fr"])).ministere_uniquement +
    (analyser (charger_domaines [lit "sante.gouv.fr", lit "impots.gouv.fr",
      lit "sante.reunion.gouv.fr"])).region_uniquement +
    (analyser (charger_domaines [lit "sante.gouv.fr", lit "impots.gouv.fr",
      lit "sante.reunion.gouv.fr"])).service_uniquement +
    (analyser (charger_domaines [lit "sante.gouv.fr", lit "impots.gouv.fr",
      lit "sante.reunion.gouv.fr"])).prefecture_uniquement +
    (analyser (charger_domaines [lit "sante.gouv.fr", lit "impots.gouv.fr",
      lit "sante.reunion.gouv.fr"])).nombre_chevauchement ≤
    (analyser (charger_domaines [lit "sante.gouv.fr", lit "impots.gouv.fr",
      lit "sante.reunion.gouv.fr"])).total_domaines :=
  claim_C8 (charger_domaines [lit "sante.gouv.fr", lit "impots.gouv.fr",
    lit "sante.reunion.gouv.fr"])

/-- C9.  The accepted count never exceeds the raw non-empty line count
(each non-empty line contributes at most one set member), so the missing
count, an integer difference, is never negative. -/
theorem claim_C9 (lignes : List Str) :
    (charger_domaines lignes).domaines.length ≤
      (charger_domaines lignes).lignes_brutes ∧
    0 ≤ (analyser (charger_domaines lignes)).nombre_manquant := by
  have h1 : (charger_domaines lignes).domaines.length =
      (boucleChargement 1 lignes [] []).1.length :=
    (List.perm_insertionSort _ _).length_eq
  have h2 := boucle_ensemble_length lignes 1 [] []
  simp only [List.length_nil, Nat.zero_add] at h2
  have h3 : (charger_domaines lignes).lignes_brutes =
      (lignes.filter (fun l => !(pyStrip l).isEmpty)).length := rfl
  have h4 : (analyser (charger_domaines lignes)).nombre_manquant =
      ((charger_domaines lignes).lignes_brutes : Int) -
        ((charger_domaines lignes).domaines.length : Int) := rfl
  constructor
  · omega
  · rw [h4]
    omega

/-- C9, witness: the bound on a content whose lines collapse to one
domain. -/
theorem claim_C9_temoin :
    (charger_domaines [lit "a.fr", lit "a.fr", lit "xyz"]).domaines.length ≤
      (charger_domaines [lit "a.fr", lit "a.fr", lit "xyz"]).lignes_brutes ∧
    0 ≤ (analyser (charger_domaines
      [lit "a.fr", lit "a.fr", lit "xyz"])).nombre_manquant :=
  claim_C9 [lit "a.fr", lit "a.fr", lit "xyz"]

/-- C10.  The per-line processing is total: making the only partial
operation (`split()[0]`) explicit with an `Option` gives the same loader
with no failure, because a line that is non-empty after stripping starts
with a non-whitespace character and therefore always yields a non-empty
first whitespace-separated token; the fatal branch can thus only be
reached by the file open/read of line 28, which is outside this model. -/
theorem claim_C10 (lignes : List Str) :
    chargerOpt lignes = some (charger_domaines lignes) ∧
    ∀ l : Str, pyStrip l ≠ [] →
      ∃ tok reste2, pySplitWs (pyStrip l) = tok :: reste2 ∧ tok ≠ [] := by
  constructor
  · show (boucleChargementOpt 1 lignes [] []).map _ = _
    rw [boucleOpt_eq]
    rfl
  · intro l hl
    rcases pyStrip_tete hl with ⟨c, t, hct, hcsp⟩
    rcases pySplitWs_tete hcsp with ⟨tok, reste2, hsp, htok⟩
    refine ⟨tok, reste2, ?_, htok⟩
    rw [hct]
    exact hsp

/-- C10, witness: the fallible loader succeeds on a concrete content and
the first token of a stripped non-empty line is non-empty. -/
theorem claim_C10_temoin :
    chargerOpt [lit "a.fr", lit "   "] =
      some (charger_domaines [lit "a.fr", lit "   "]) ∧
    ∃ tok reste2, pySplitWs (pyStrip (lit "  economie.gouv.fr x ")) =
      tok :: reste2 ∧ tok ≠ [] :=
  ⟨(claim_C10 [lit "a.fr", lit "   "]).1,
    (claim_C10 []).2 (lit "  economie.gouv.fr x ") (by decide)⟩
